import Mathlib

/-!
Shallow embedding of `src/faceapi_server.js` (face-api.js HTTP server).

The server exposes two request handlers built on an external inference
engine (face-api.js `detectSingleFace(...).withFaceLandmarks().withFaceDescriptor()`):

* `POST /extract_embedding` — decodes one base64 image and runs a fixed list of
  four detector configurations in order until one yields a detection whose
  `descriptor` field is present (the multi-strategy fallback loop,
  lines 147–231 of the source);
* `POST /batch_extract` — runs a single fixed `TinyFaceDetectorOptions`
  configuration over a list of images, isolating per-item failures and
  producing a summary (lines 244–328 of the source).

The inference engine, image decoding, and wall-clock timing are external
effects; they are modelled as explicit oracle parameters (a function from
detector options to an attempt result, a decode-success predicate, and
elapsed-time arguments).  JavaScript numbers are modelled as `ℚ`, with the
special values `NaN` / `Infinity` produced by division represented
explicitly by the `JSNum` type.
-/

namespace FaceAPI

/-- JavaScript number results of `Math.round(totalTime / images.length)`:
either a finite value, or `NaN` / `Infinity` arising from division by zero. -/
inductive JSNum where
  | nan : JSNum
  | inf : JSNum
  | val : ℚ → JSNum
deriving DecidableEq, Repr

/-- JavaScript division `a / n` of two non-negative numbers, where `0 / 0 = NaN`
and `a / 0 = Infinity` for `a > 0`. -/
def jsDiv (a n : ℕ) : JSNum :=
  if n = 0 then (if a = 0 then JSNum.nan else JSNum.inf) else JSNum.val ((a : ℚ) / (n : ℚ))

/-- JavaScript `Math.round`: `⌊x + 1/2⌋` on finite values (Mathlib's `round`),
and the identity on `NaN` / `Infinity`. -/
def jsRound : JSNum → JSNum
  | JSNum.nan => JSNum.nan
  | JSNum.inf => JSNum.inf
  | JSNum.val q => JSNum.val ((round q : ℤ) : ℚ)

/-- Detector options passed to `faceapi.detectSingleFace`: either
`TinyFaceDetectorOptions({inputSize, scoreThreshold})` or
`SsdMobilenetv1Options({minConfidence})`. -/
inductive DetectorOptions where
  | tiny (inputSize : ℕ) (scoreThreshold : ℚ) : DetectorOptions
  | ssd (minConfidence : ℚ) : DetectorOptions
deriving DecidableEq, Repr

/-- One entry of the `detectionStrategies` array: a name and detector options. -/
structure DetectionStrategy where
  name : String
  options : DetectorOptions
deriving DecidableEq, Repr

/-- The bounding box `detection.detection.box` (JS numbers, modelled as `ℚ`). -/
structure FaceBox where
  x : ℚ
  y : ℚ
  width : ℚ
  height : ℚ
deriving DecidableEq, Repr

/-- The value produced by a successful
`detectSingleFace(img, opts).withFaceLandmarks().withFaceDescriptor()` call:
a bounding box, an optional `detection.score` (the engine may omit it, making
the field `undefined`), an optional landmarks object (carrying
`positions.length`), and an optional `descriptor` (its entries, when present). -/
structure FaceDetection where
  box : FaceBox
  score : Option ℚ
  landmarks : Option ℕ
  descriptor : Option (List ℚ)
deriving DecidableEq, Repr

/-- Result of one engine invocation: the call either throws (`Except.error` with
the error message) or returns `undefined` / a `FaceDetection`
(`Except.ok none` / `Except.ok (some d)`). -/
abbrev AttemptResult := Except String (Option FaceDetection)

/-- The JavaScript truthiness test `detection && detection.descriptor` applied
to the value stored in the loop's `detection` variable: true iff a detection
object is present and its `descriptor` field is present (any object, even an
empty typed array, is truthy in JS). -/
def jsValidOpt : Option FaceDetection → Bool
  | some d => d.descriptor.isSome
  | none => false

/-- `jsValidOpt` lifted to an attempt result: an engine call counts as a
success for the loop's break condition iff it returned a detection with a
present `descriptor`. -/
def jsValidE : AttemptResult → Bool
  | Except.ok od => jsValidOpt od
  | Except.error _ => false

/-- The spec's notion of a valid detection: the attempt returned a detection
whose descriptor is present AND non-empty. -/
def specValid : AttemptResult → Bool
  | Except.ok (some d) =>
      match d.descriptor with
      | some desc => decide (desc ≠ [])
      | none => false
  | Except.ok none => false
  | Except.error _ => false

/-- The strategy loop of `POST /extract_embedding` (source lines 177–198).
State: the JS variables `detection` (retains its previous value when an
attempt throws) and `usedStrategy` (set only when the break fires).
Returns the final `detection` value, the final `usedStrategy` value, and the
list of strategy names actually invoked on the engine, in invocation order. -/
def detectWithFallback (engine : DetectorOptions → AttemptResult) :
    List DetectionStrategy → Option FaceDetection →
    Option FaceDetection × Option String × List String
  | [], det => (det, none, [])
  | s :: rest, det =>
    match engine s.options with
    | Except.error _ =>
      let r := detectWithFallback engine rest det
      (r.1, r.2.1, s.name :: r.2.2)
    | Except.ok od =>
      if jsValidOpt od then (od, some s.name, [s.name])
      else
        let r := detectWithFallback engine rest od
        (r.1, r.2.1, s.name :: r.2.2)

/-- The fixed `detectionStrategies` array of `POST /extract_embedding`
(source lines 147–175). -/
def detectionStrategies : List DetectionStrategy :=
  [ { name := "TinyFaceDetector_High", options := DetectorOptions.tiny 416 (3/10) },
    { name := "TinyFaceDetector_Medium", options := DetectorOptions.tiny 320 (4/10) },
    { name := "TinyFaceDetector_Low", options := DetectorOptions.tiny 224 (5/10) },
    { name := "SsdMobilenetv1", options := DetectorOptions.ssd (3/10) } ]

/-- The JS expression `detection.detection.score || 0.0`: a present score is
kept (`0` is falsy, so a zero score falls through to the `0.0` default, which
is the same value), an absent score defaults to `0.0`. -/
def jsConfidence : Option ℚ → ℚ
  | none => 0
  | some s => if s = 0 then 0 else s

/-- Global server state relevant to request handling: the `modelsLoaded` flag
and the `loadingProgress` map (model name ↦ status string). -/
structure ServerState where
  modelsLoaded : Bool
  loadingProgress : List (String × String)
deriving DecidableEq, Repr

/-- JS falsiness of the request-body field `image` (`!image`): the field is
missing or the empty string. -/
def jsFalsyStr : Option String → Bool
  | none => true
  | some s => s = ""

/-- The JSON body sent in response to `POST /extract_embedding`. -/
inductive ExtractResponse where
  /-- HTTP 503: `{success:false, error, progress}` (source lines 114–120). -/
  | notReady (error : String) (progress : List (String × String)) : ExtractResponse
  /-- HTTP 400: `{success:false, error}` (source lines 127–132, 139–144). -/
  | badRequest (error : String) : ExtractResponse
  /-- HTTP 200: the success body (source lines 202–220). -/
  | success (embedding : List ℚ) (inferenceTime : ℕ) (strategy : Option String)
      (boxX boxY boxW boxH : ℤ) (confidence : ℚ) (landmarks : ℕ) : ExtractResponse
  /-- HTTP 200: the no-detection body (source lines 221–230). -/
  | noFace (error : String) (inferenceTime : ℕ) (strategiesTried : List String) : ExtractResponse
deriving DecidableEq, Repr

/-- HTTP status code of an `ExtractResponse`. -/
def extractStatus : ExtractResponse → ℕ
  | ExtractResponse.notReady _ _ => 503
  | ExtractResponse.badRequest _ => 400
  | ExtractResponse.success _ _ _ _ _ _ _ _ _ => 200
  | ExtractResponse.noFace _ _ _ => 200

/-- The `success` field of an `ExtractResponse` body. -/
def extractSuccessFlag : ExtractResponse → Bool
  | ExtractResponse.success _ _ _ _ _ _ _ _ _ => true
  | _ => false

/-- The `confidence` field of an `ExtractResponse` body, when present. -/
def extractConfidence : ExtractResponse → Option ℚ
  | ExtractResponse.success _ _ _ _ _ _ _ c _ => some c
  | _ => none

/-- Observable outcome of one `POST /extract_embedding` request: the response
body, the ordered list of strategy names invoked on the engine, and whether
image decoding was attempted. -/
structure ExtractOutcome where
  response : ExtractResponse
  attempted : List String
  decodeAttempted : Bool
deriving DecidableEq, Repr

/-- The `POST /extract_embedding` handler (source lines 113–241), parametrised
by the strategy list it loops over.  `decode` tells whether
`canvas.loadImage` succeeds on the given base64 payload; `engine` is one
`detectSingleFace(...).withFaceLandmarks().withFaceDescriptor()` invocation on
the decoded image; `totalTime` is the measured elapsed time. -/
def extractEmbeddingWith (strategies : List DetectionStrategy) (st : ServerState)
    (image : Option String) (decode : String → Bool)
    (engine : DetectorOptions → AttemptResult) (totalTime : ℕ) : ExtractOutcome :=
  if st.modelsLoaded = false then
    ⟨ExtractResponse.notReady "Models not loaded yet" st.loadingProgress, [], false⟩
  else if jsFalsyStr image then
    ⟨ExtractResponse.badRequest "No image provided in request body", [], false⟩
  else if decode (image.getD "") = false then
    ⟨ExtractResponse.badRequest "Invalid image format or corrupted base64 data", [], true⟩
  else
    let r := detectWithFallback engine strategies none
    match r.1 with
    | some d =>
      match d.descriptor with
      | some desc =>
        ⟨ExtractResponse.success desc totalTime r.2.1
            (round d.box.x) (round d.box.y) (round d.box.width) (round d.box.height)
            (jsConfidence d.score) (d.landmarks.getD 0), r.2.2, true⟩
      | none =>
        ⟨ExtractResponse.noFace "No face detected with any strategy" totalTime
            (strategies.map (fun s => s.name)), r.2.2, true⟩
    | none =>
      ⟨ExtractResponse.noFace "No face detected with any strategy" totalTime
          (strategies.map (fun s => s.name)), r.2.2, true⟩

/-- The `POST /extract_embedding` handler with its hard-coded strategy list. -/
def extractEmbedding (st : ServerState) (image : Option String) (decode : String → Bool)
    (engine : DetectorOptions → AttemptResult) (totalTime : ℕ) : ExtractOutcome :=
  extractEmbeddingWith detectionStrategies st image decode engine totalTime

/-- The fixed detector options used for every item of `POST /batch_extract`:
`new faceapi.TinyFaceDetectorOptions({ inputSize: 416, scoreThreshold: 0.3 })`
(source line 272). -/
def batchTinyOptions : DetectorOptions := DetectorOptions.tiny 416 (3/10)

/-- One element of the `results` array of `POST /batch_extract`.  JS builds
objects with different key sets in the three branches; absent keys are
modelled as `none`. -/
structure BatchItemResult where
  index : ℕ
  success : Bool
  embedding : Option (List ℚ)
  inferenceTime : ℕ
  confidence : Option ℚ
  error : Option String
deriving DecidableEq, Repr

/-- A placeholder `BatchItemResult` used as the default of `List.getD`. -/
def dummyItem : BatchItemResult :=
  ⟨0, false, none, 0, none, none⟩

/-- The body of the per-item loop of `POST /batch_extract`
(source lines 265–301): decode the item (`dec`), run the engine once with the
fixed options, and convert every failure into a `success = false` record via
the surrounding `try/catch`. -/
def processBatchItem (i time : ℕ) (dec : Except String Unit)
    (eng : DetectorOptions → AttemptResult) : BatchItemResult :=
  match dec with
  | Except.error msg => ⟨i, false, none, time, none, some msg⟩
  | Except.ok _ =>
    match eng batchTinyOptions with
    | Except.error msg => ⟨i, false, none, time, none, some msg⟩
    | Except.ok od =>
      match od with
      | some d =>
        match d.descriptor with
        | some desc => ⟨i, true, some desc, time, some (jsConfidence d.score), none⟩
        | none => ⟨i, false, none, time, none, some "No face detected"⟩
      | none => ⟨i, false, none, time, none, some "No face detected"⟩

/-- The `summary` object of the `POST /batch_extract` response
(source lines 316–322). -/
structure BatchSummary where
  total : ℕ
  successful : ℕ
  failed : ℕ
  totalTime : ℕ
  averageTime : JSNum
deriving DecidableEq, Repr

/-- The batch loop and summary computation of `POST /batch_extract`
(source lines 262–322).  `decode i` is the outcome of `canvas.loadImage` on
`images[i]`; `engine i` is the engine on item `i`'s decoded image; `times i`
is item `i`'s measured elapsed time; `totalTime` the whole batch's.  Note
`averageTime` is `Math.round(totalTime / images.length)` with no guard for an
empty batch. -/
def runBatch (images : List String) (decode : ℕ → Except String Unit)
    (engine : ℕ → DetectorOptions → AttemptResult)
    (times : ℕ → ℕ) (totalTime : ℕ) : List BatchItemResult × BatchSummary :=
  let results := (List.range images.length).map
    (fun i => processBatchItem i (times i) (decode i) (engine i))
  let successful := (results.filter (fun r => r.success)).length
  (results,
   { total := images.length
     successful := successful
     failed := images.length - successful
     totalTime := totalTime
     averageTime := jsRound (jsDiv totalTime images.length) })

/-- The JSON body sent in response to `POST /batch_extract`. -/
inductive BatchResponse where
  /-- HTTP 503: `{error, progress}` (source lines 245–250). -/
  | notReady (error : String) (progress : List (String × String)) : BatchResponse
  /-- HTTP 400: `{error}` (source lines 255–259). -/
  | badRequest (error : String) : BatchResponse
  /-- HTTP 200: `{results, summary}` (source lines 314–323). -/
  | ok (results : List BatchItemResult) (summary : BatchSummary) : BatchResponse
deriving DecidableEq, Repr

/-- HTTP status code of a `BatchResponse`. -/
def batchStatus : BatchResponse → ℕ
  | BatchResponse.notReady _ _ => 503
  | BatchResponse.badRequest _ => 400
  | BatchResponse.ok _ _ => 200

/-- Observable outcome of one `POST /batch_extract` request: the response body
and the number of items actually processed (decoded / run through the engine). -/
structure BatchOutcome where
  response : BatchResponse
  itemsProcessed : ℕ
deriving DecidableEq, Repr

/-- The `POST /batch_extract` handler (source lines 244–328).  `images` is the
request body's `images` field, `none` when missing or not an array. -/
def batchExtract (st : ServerState) (images : Option (List String))
    (decode : ℕ → Except String Unit) (engine : ℕ → DetectorOptions → AttemptResult)
    (times : ℕ → ℕ) (totalTime : ℕ) : BatchOutcome :=
  if st.modelsLoaded = false then
    ⟨BatchResponse.notReady "Models not loaded yet" st.loadingProgress, 0⟩
  else
    match images with
    | none => ⟨BatchResponse.badRequest "Images array is required", 0⟩
    | some imgs =>
      let r := runBatch imgs decode engine times totalTime
      ⟨BatchResponse.ok r.1 r.2, imgs.length⟩

/-! ### Lemmas about the strategy loop -/

/-- If every strategy of `pre` fails the loop's break test and `s` passes it,
the loop run on `pre ++ s :: post` invokes exactly the strategies of `pre`
followed by `s`, in order, and ends with `s`'s detection and `s`'s name. -/
theorem detectWithFallback_first (engine : DetectorOptions → AttemptResult)
    (pre post : List DetectionStrategy) (s : DetectionStrategy) (det : Option FaceDetection)
    (hpre : ∀ p ∈ pre, jsValidE (engine p.options) = false)
    (hs : jsValidE (engine s.options) = true) :
    ∃ od, engine s.options = Except.ok od ∧ jsValidOpt od = true ∧
      detectWithFallback engine (pre ++ s :: post) det =
        (od, some s.name, pre.map (fun p => p.name) ++ [s.name]) := by
  revert hpre
  induction pre generalizing det with
  | nil =>
    intro _
    cases h : engine s.options with
    | error msg => simp [jsValidE, h] at hs
    | ok od =>
      have hv : jsValidOpt od = true := by simpa [jsValidE, h] using hs
      exact ⟨od, rfl, hv, by simp [detectWithFallback, h, hv]⟩
  | cons p pre ih =>
    intro hpre
    have hp : jsValidE (engine p.options) = false := hpre p (by simp)
    have hrest : ∀ q ∈ pre, jsValidE (engine q.options) = false :=
      fun q hq => hpre q (by simp [hq])
    cases h : engine p.options with
    | error msg =>
      obtain ⟨od, hod, hv, heq⟩ := ih det hrest
      exact ⟨od, hod, hv, by simp [detectWithFallback, h, heq]⟩
    | ok od' =>
      have hv' : jsValidOpt od' = false := by simpa [jsValidE, h] using hp
      obtain ⟨od, hod, hv, heq⟩ := ih od' hrest
      exact ⟨od, hod, hv, by simp [detectWithFallback, h, hv', heq]⟩

/-- If every strategy fails the loop's break test, the loop invokes all of
them in order, records no winning strategy, and its final `detection` value
still fails the test (given the initial value does, as `null` does). -/
theorem detectWithFallback_exhaust (engine : DetectorOptions → AttemptResult)
    (ss : List DetectionStrategy) (det : Option FaceDetection)
    (hall : ∀ s ∈ ss, jsValidE (engine s.options) = false)
    (hdet : jsValidOpt det = false) :
    jsValidOpt (detectWithFallback engine ss det).1 = false ∧
    (detectWithFallback engine ss det).2.1 = none ∧
    (detectWithFallback engine ss det).2.2 = ss.map (fun s => s.name) := by
  revert hall
  induction ss generalizing det with
  | nil =>
    intro _
    exact ⟨hdet, rfl, rfl⟩
  | cons s ss ih =>
    intro hall
    have hs : jsValidE (engine s.options) = false := hall s (by simp)
    have hrest : ∀ q ∈ ss, jsValidE (engine q.options) = false :=
      fun q hq => hall q (by simp [hq])
    cases h : engine s.options with
    | error msg =>
      obtain ⟨h1, h2, h3⟩ := ih det hdet hrest
      exact ⟨by simpa [detectWithFallback, h] using h1,
             by simpa [detectWithFallback, h] using h2,
             by simp [detectWithFallback, h, h3]⟩
    | ok od =>
      have hv : jsValidOpt od = false := by simpa [jsValidE, h] using hs
      obtain ⟨h1, h2, h3⟩ := ih od hv hrest
      exact ⟨by simpa [detectWithFallback, h, hv] using h1,
             by simpa [detectWithFallback, h, hv] using h2,
             by simp [detectWithFallback, h, hv, h3]⟩

/-- A spec-valid attempt (present, non-empty descriptor) passes the code's
break test. -/
theorem specValid_imp_jsValid (r : AttemptResult) (h : specValid r = true) :
    jsValidE r = true := by
  cases r with
  | error msg => simp [specValid] at h
  | ok od =>
    cases od with
    | none => simp [specValid] at h
    | some d =>
      cases hd : d.descriptor with
      | none => simp [specValid, hd] at h
      | some desc => simp [jsValidE, jsValidOpt, hd]

/-- Conversely, when the engine never returns a present-but-empty descriptor
(face-api.js descriptors have fixed positive length), an attempt passing the
code's break test is spec-valid. -/
theorem jsValid_imp_specValid (engine : DetectorOptions → AttemptResult)
    (hne : ∀ o d, engine o = Except.ok (some d) → d.descriptor ≠ some [])
    (o : DetectorOptions) (h : jsValidE (engine o) = true) :
    specValid (engine o) = true := by
  cases hr : engine o with
  | error msg => simp [jsValidE, hr] at h
  | ok od =>
    cases od with
    | none => simp [jsValidE, jsValidOpt, hr] at h
    | some d =>
      cases hd : d.descriptor with
      | none => simp [jsValidE, jsValidOpt, hr, hd] at h
      | some desc =>
        have hnil : desc ≠ [] := by
          intro hcon
          exact hne o d hr (by rw [hd, hcon])
        simp [specValid, hd, hnil]

/-- `detectWithFallback_first` restated with the spec's validity notion,
under the engine contract that present descriptors are non-empty. -/
theorem detectWithFallback_first_spec (engine : DetectorOptions → AttemptResult)
    (pre post : List DetectionStrategy) (s : DetectionStrategy)
    (hne : ∀ o d, engine o = Except.ok (some d) → d.descriptor ≠ some [])
    (hpre : ∀ p ∈ pre, specValid (engine p.options) = false)
    (hs : specValid (engine s.options) = true) :
    ∃ od, engine s.options = Except.ok od ∧ jsValidOpt od = true ∧
      detectWithFallback engine (pre ++ s :: post) none =
        (od, some s.name, pre.map (fun p => p.name) ++ [s.name]) := by
  have hpre' : ∀ p ∈ pre, jsValidE (engine p.options) = false := by
    intro p hp
    cases hb : jsValidE (engine p.options) with
    | false => rfl
    | true =>
      have := jsValid_imp_specValid engine hne p.options hb
      simp [hpre p hp] at this
  exact detectWithFallback_first engine pre post s none hpre'
    (specValid_imp_jsValid _ hs)

/-! ### Claims -/

/-- C2: for every image/engine and every ordered strategy list split as
`pre ++ s :: post` where no strategy of `pre` yields a valid detection
(present, non-empty descriptor) and `s` does, the fallback loop attempts
exactly the configurations of `pre` followed by `s`, in the given order
(nothing after the success), and records `s`'s name as the winning strategy.
The hypothesis `hne` is the engine's contract that a present descriptor is
never empty. -/
theorem claim_C2_fallback_order (engine : DetectorOptions → AttemptResult)
    (pre post : List DetectionStrategy) (s : DetectionStrategy)
    (hne : ∀ o d, engine o = Except.ok (some d) → d.descriptor ≠ some [])
    (hpre : ∀ p ∈ pre, specValid (engine p.options) = false)
    (hs : specValid (engine s.options) = true) :
    ∃ od, engine s.options = Except.ok od ∧ jsValidOpt od = true ∧
      detectWithFallback engine (pre ++ s :: post) none =
        (od, some s.name, pre.map (fun p => p.name) ++ [s.name]) :=
  detectWithFallback_first_spec engine pre post s hne hpre hs

/-- An engine that fails on the 416-resolution tiny detector and succeeds on
everything else, used to instantiate hypotheses concretely. -/
def isTiny416 : DetectorOptions → Bool
  | DetectorOptions.tiny 416 _ => true
  | _ => false

/-- A concrete detection with a 3-entry descriptor. -/
def sampleDet : FaceDetection :=
  { box := ⟨10, 20, 30, 40⟩, score := some (9/10), landmarks := some 68,
    descriptor := some [1, 2, 3] }

/-- Concrete engine: no detection at input size 416, `sampleDet` otherwise. -/
def witEngineA (o : DetectorOptions) : AttemptResult :=
  if isTiny416 o then Except.ok none else Except.ok (some sampleDet)

theorem witEngineA_ne : ∀ o d, witEngineA o = Except.ok (some d) →
    d.descriptor ≠ some [] := by
  intro o d h
  unfold witEngineA at h
  split at h
  · exact absurd h (by simp)
  · have hd : sampleDet = d := by
      injection h with h1
      injection h1
    rw [← hd]
    decide

theorem claim_C2_fallback_order_witness :
    witEngineA (DetectorOptions.tiny 320 (4/10)) = Except.ok (some sampleDet) ∧
    jsValidOpt (some sampleDet) = true ∧
    detectWithFallback witEngineA detectionStrategies none =
      (some sampleDet, some "TinyFaceDetector_Medium",
        ["TinyFaceDetector_High", "TinyFaceDetector_Medium"]) := by
  obtain ⟨od, hod, hv, heq⟩ := claim_C2_fallback_order witEngineA
    [{ name := "TinyFaceDetector_High", options := DetectorOptions.tiny 416 (3/10) }]
    [{ name := "TinyFaceDetector_Low", options := DetectorOptions.tiny 224 (5/10) },
     { name := "SsdMobilenetv1", options := DetectorOptions.ssd (3/10) }]
    { name := "TinyFaceDetector_Medium", options := DetectorOptions.tiny 320 (4/10) }
    witEngineA_ne
    (by intro p hp; simp only [List.mem_singleton] at hp; subst hp; decide)
    (by decide)
  have hodv : od = some sampleDet := by
    have hA : witEngineA (DetectorOptions.tiny 320 (4/10)) = Except.ok (some sampleDet) :=
      rfl
    rw [hA] at hod
    injection hod with h1
    exact h1.symm
  subst hodv
  exact ⟨rfl, hv, by simpa [detectionStrategies] using heq⟩

/-- C3: when all configured strategies are exhausted without a valid
detection, the handler returns an HTTP-200, success-shaped body with
`success = false`, the error text "No face detected with any strategy", and
`strategiesTried` equal to the full input configuration-name list in order;
the default configuration has exactly the 4 documented names. -/
theorem claim_C3_exhaustion_response (strategies : List DetectionStrategy)
    (st : ServerState) (image : Option String) (decode : String → Bool)
    (engine : DetectorOptions → AttemptResult) (totalTime : ℕ)
    (hready : st.modelsLoaded = true)
    (himg : jsFalsyStr image = false)
    (hdec : decode (image.getD "") = true)
    (hne : ∀ o d, engine o = Except.ok (some d) → d.descriptor ≠ some [])
    (hall : ∀ s ∈ strategies, specValid (engine s.options) = false) :
    (extractEmbeddingWith strategies st image decode engine totalTime).response =
      ExtractResponse.noFace "No face detected with any strategy" totalTime
        (strategies.map (fun s => s.name)) ∧
    extractStatus
      (extractEmbeddingWith strategies st image decode engine totalTime).response = 200 ∧
    extractSuccessFlag
      (extractEmbeddingWith strategies st image decode engine totalTime).response = false ∧
    detectionStrategies.map (fun s => s.name) =
      ["TinyFaceDetector_High", "TinyFaceDetector_Medium",
       "TinyFaceDetector_Low", "SsdMobilenetv1"] := by
  have hall' : ∀ s ∈ strategies, jsValidE (engine s.options) = false := by
    intro p hp
    cases hb : jsValidE (engine p.options) with
    | false => rfl
    | true =>
      have := jsValid_imp_specValid engine hne p.options hb
      simp [hall p hp] at this
  obtain ⟨h1, _h2, h3⟩ := detectWithFallback_exhaust engine strategies none hall' rfl
  have hmain : extractEmbeddingWith strategies st image decode engine totalTime =
      ⟨ExtractResponse.noFace "No face detected with any strategy" totalTime
          (strategies.map (fun s => s.name)),
        strategies.map (fun s => s.name), true⟩ := by
    cases hr1 : (detectWithFallback engine strategies none).1 with
    | none =>
      simp [extractEmbeddingWith, hready, himg, hdec, hr1, h3]
    | some d =>
      have hdesc : d.descriptor = none := by
        cases hd : d.descriptor with
        | none => rfl
        | some desc =>
          rw [hr1] at h1
          simp [jsValidOpt, hd] at h1
      simp [extractEmbeddingWith, hready, himg, hdec, hr1, hdesc, h3]
  rw [hmain]
  exact ⟨rfl, rfl, rfl, rfl⟩

theorem claim_C3_exhaustion_response_witness :
    (extractEmbedding ⟨true, []⟩ (some "img") (fun _ => true)
        (fun _ => Except.ok none) 5).response =
      ExtractResponse.noFace "No face detected with any strategy" 5
        ["TinyFaceDetector_High", "TinyFaceDetector_Medium",
         "TinyFaceDetector_Low", "SsdMobilenetv1"] := by
  have h := claim_C3_exhaustion_response detectionStrategies ⟨true, []⟩ (some "img")
    (fun _ => true) (fun _ => Except.ok none) 5 rfl (by decide) rfl
    (by intro o d hcon; simp at hcon) (fun s _ => rfl)
  simpa [extractEmbedding, detectionStrategies] using h.1

/-- C4: the default strategy sequence of the single-image path has exactly 4
configurations, in order: the fast (tiny) detector at input size 416 with
score threshold 0.3, then 320 with 0.4, then 224 with 0.5, then the
SsdMobilenetv1 detector family with minimum confidence 0.3. -/
theorem claim_C4_default_strategy_sequence :
    detectionStrategies.length = 4 ∧
    detectionStrategies.map (fun s => (s.name, s.options)) =
      [("TinyFaceDetector_High", DetectorOptions.tiny 416 (3/10)),
       ("TinyFaceDetector_Medium", DetectorOptions.tiny 320 (4/10)),
       ("TinyFaceDetector_Low", DetectorOptions.tiny 224 (5/10)),
       ("SsdMobilenetv1", DetectorOptions.ssd (3/10))] :=
  ⟨rfl, rfl⟩

/-- C7: if an earlier strategy's inference call throws and a later strategy is
the first to yield a valid detection, the handler still returns the success
response, with the later strategy's name recorded; the throwing strategy is
skipped rather than aborting the operation. -/
theorem claim_C7_transient_error_skipped (strategies pre post : List DetectionStrategy)
    (s : DetectionStrategy) (hsplit : strategies = pre ++ s :: post)
    (st : ServerState) (image : Option String) (decode : String → Bool)
    (engine : DetectorOptions → AttemptResult) (totalTime : ℕ)
    (hready : st.modelsLoaded = true)
    (himg : jsFalsyStr image = false)
    (hdec : decode (image.getD "") = true)
    (herr : ∃ p ∈ pre, ∃ msg, engine p.options = Except.error msg)
    (hne : ∀ o d, engine o = Except.ok (some d) → d.descriptor ≠ some [])
    (hpre : ∀ p ∈ pre, specValid (engine p.options) = false)
    (hs : specValid (engine s.options) = true) :
    ∃ d desc, engine s.options = Except.ok (some d) ∧ d.descriptor = some desc ∧
      extractEmbeddingWith strategies st image decode engine totalTime =
        ⟨ExtractResponse.success desc totalTime (some s.name)
            (round d.box.x) (round d.box.y) (round d.box.width) (round d.box.height)
            (jsConfidence d.score) (d.landmarks.getD 0),
          pre.map (fun p => p.name) ++ [s.name], true⟩ ∧
      extractSuccessFlag
        (extractEmbeddingWith strategies st image decode engine totalTime).response = true := by
  subst hsplit
  obtain ⟨od, hod, hv, heq⟩ := detectWithFallback_first_spec engine pre post s hne hpre hs
  cases od with
  | none => simp [jsValidOpt] at hv
  | some d =>
    cases hd : d.descriptor with
    | none => simp [jsValidOpt, hd] at hv
    | some desc =>
      refine ⟨d, desc, hod, hd, ?_, ?_⟩
      · simp [extractEmbeddingWith, hready, himg, hdec, heq, hd]
      · simp [extractEmbeddingWith, hready, himg, hdec, heq, hd, extractSuccessFlag]

/-- Concrete engine: throws at input size 416, `sampleDet` otherwise. -/
def witEngineB (o : DetectorOptions) : AttemptResult :=
  if isTiny416 o then Except.error "backend glitch" else Except.ok (some sampleDet)

theorem witEngineB_ne : ∀ o d, witEngineB o = Except.ok (some d) →
    d.descriptor ≠ some [] := by
  intro o d h
  unfold witEngineB at h
  split at h
  · exact absurd h (by simp)
  · have hd : sampleDet = d := by
      injection h with h1
      injection h1
    rw [← hd]
    decide

theorem claim_C7_transient_error_skipped_witness :
    extractEmbeddingWith detectionStrategies ⟨true, []⟩ (some "img") (fun _ => true)
        witEngineB 7 =
      ⟨ExtractResponse.success [1, 2, 3] 7 (some "TinyFaceDetector_Medium")
          10 20 30 40 (9/10) 68,
        ["TinyFaceDetector_High", "TinyFaceDetector_Medium"], true⟩ := by
  obtain ⟨d, desc, hod, hd, heq, _⟩ := claim_C7_transient_error_skipped
    detectionStrategies
    [{ name := "TinyFaceDetector_High", options := DetectorOptions.tiny 416 (3/10) }]
    [{ name := "TinyFaceDetector_Low", options := DetectorOptions.tiny 224 (5/10) },
     { name := "SsdMobilenetv1", options := DetectorOptions.ssd (3/10) }]
    { name := "TinyFaceDetector_Medium", options := DetectorOptions.tiny 320 (4/10) }
    rfl ⟨true, []⟩ (some "img") (fun _ => true) witEngineB 7 rfl (by decide) rfl
    ⟨{ name := "TinyFaceDetector_High", options := DetectorOptions.tiny 416 (3/10) },
      by simp, "backend glitch", rfl⟩
    witEngineB_ne
    (by intro p hp; simp only [List.mem_singleton] at hp; subst hp; rfl)
    (by decide)
  have hdet : d = sampleDet := by
    have hB : witEngineB (DetectorOptions.tiny 320 (4/10)) = Except.ok (some sampleDet) := rfl
    rw [hB] at hod
    injection hod with h1
    injection h1 with h2
    exact h2.symm
  subst hdet
  have hdesc : desc = [1, 2, 3] := by
    have hsd : sampleDet.descriptor = some [1, 2, 3] := rfl
    rw [hsd] at hd
    injection hd with h2
    exact h2.symm
  subst hdesc
  rw [heq]
  simp only [sampleDet, List.map_cons, List.map_nil]
  norm_num [jsConfidence]

/-! ### Lemmas about the batch loop -/

/-- Every branch of the per-item loop body stores the item's input position
in the `index` field. -/
theorem processBatchItem_index (i time : ℕ) (dec : Except String Unit)
    (eng : DetectorOptions → AttemptResult) :
    (processBatchItem i time dec eng).index = i := by
  rcases dec with msg | u
  · rfl
  · rcases h : eng batchTinyOptions with msg | od
    · simp [processBatchItem, h]
    · rcases od with _ | d
      · simp [processBatchItem, h]
      · rcases hd : d.descriptor with _ | desc
        · simp [processBatchItem, h, hd]
        · simp [processBatchItem, h, hd]

/-- The `results` array entry at a position inside the batch is exactly the
per-item loop body applied to that item. -/
theorem runBatch_getD (images : List String) (decode : ℕ → Except String Unit)
    (engine : ℕ → DetectorOptions → AttemptResult) (times : ℕ → ℕ) (totalTime : ℕ)
    (i : ℕ) (hi : i < images.length) :
    (runBatch images decode engine times totalTime).1.getD i dummyItem =
      processBatchItem i (times i) (decode i) (engine i) := by
  have h1 : ((List.range images.length).map
      (fun k => processBatchItem k (times k) (decode k) (engine k))).get? i =
      some (processBatchItem i (times i) (decode i) (engine i)) := by
    rw [List.get?_map, List.get?_range hi]
    rfl
  simp [runBatch, List.getD_eq_getElem?_getD, ← List.get?_eq_getElem?, h1]

/-- C5: the batch returns one result per input, `results[i].index = i` with
each index appearing exactly once in input order (the index projection of the
results is exactly `0, …, n-1`), and the summary satisfies
`successful + failed = total` with `total` the input length. -/
theorem claim_C5_batch_invariants (images : List String)
    (decode : ℕ → Except String Unit) (engine : ℕ → DetectorOptions → AttemptResult)
    (times : ℕ → ℕ) (totalTime : ℕ) :
    (runBatch images decode engine times totalTime).1.length = images.length ∧
    (runBatch images decode engine times totalTime).1.map (fun r => r.index) =
      List.range images.length ∧
    (runBatch images decode engine times totalTime).2.successful +
      (runBatch images decode engine times totalTime).2.failed =
      (runBatch images decode engine times totalTime).2.total ∧
    (runBatch images decode engine times totalTime).2.total = images.length := by
  refine ⟨by simp [runBatch], ?_, ?_, by simp [runBatch]⟩
  · simp [runBatch, List.map_map, Function.comp_def, processBatchItem_index]
  · have hle : (((List.range images.length).map
        (fun k => processBatchItem k (times k) (decode k) (engine k))).filter
          (fun r => r.success)).length ≤ images.length := by
      calc (((List.range images.length).map
            (fun k => processBatchItem k (times k) (decode k) (engine k))).filter
              (fun r => r.success)).length
          ≤ ((List.range images.length).map
              (fun k => processBatchItem k (times k) (decode k) (engine k))).length :=
            List.length_filter_le _ _
        _ = images.length := by simp
    simp only [runBatch]
    exact Nat.add_sub_cancel' hle

/-- Any of the three per-item failure modes (decode throws, inference throws,
or no detection with a present descriptor) yields a `success = false` record
carrying an error string. -/
theorem processBatchItem_fail (i time : ℕ) (dec : Except String Unit)
    (eng : DetectorOptions → AttemptResult)
    (hfail : (∃ msg, dec = Except.error msg) ∨
             (∃ msg, eng batchTinyOptions = Except.error msg) ∨
             (∃ od, eng batchTinyOptions = Except.ok od ∧ jsValidOpt od = false)) :
    (processBatchItem i time dec eng).success = false ∧
    (processBatchItem i time dec eng).error.isSome = true := by
  rcases hfail with ⟨msg, h⟩ | ⟨msg, h⟩ | ⟨od, h, hv⟩
  · subst h
    exact ⟨rfl, rfl⟩
  · cases dec with
    | error m => exact ⟨rfl, rfl⟩
    | ok u => constructor <;> simp [processBatchItem, h]
  · cases dec with
    | error m => exact ⟨rfl, rfl⟩
    | ok u =>
      cases od with
      | none => constructor <;> simp [processBatchItem, h]
      | some d =>
        have hd : d.descriptor = none := by
          cases hdd : d.descriptor with
          | none => rfl
          | some desc => simp [jsValidOpt, hdd] at hv
        constructor <;> simp [processBatchItem, h, hd]

/-- C6: a failing item in a batch (decode error, inference error, or no valid
detection) is recorded as a `success = false` result with an error string,
all `n` results are still produced, and the results of the other items are
unaffected: changing the failing item's decode/inference behaviour (or any
single item's) leaves every other position's result unchanged. -/
theorem claim_C6_batch_failure_isolation (images : List String)
    (decode : ℕ → Except String Unit) (engine : ℕ → DetectorOptions → AttemptResult)
    (times : ℕ → ℕ) (totalTime : ℕ) (i : ℕ) (hi : i < images.length)
    (hfail : (∃ msg, decode i = Except.error msg) ∨
             (∃ msg, engine i batchTinyOptions = Except.error msg) ∨
             (∃ od, engine i batchTinyOptions = Except.ok od ∧ jsValidOpt od = false)) :
    (runBatch images decode engine times totalTime).1.length = images.length ∧
    ((runBatch images decode engine times totalTime).1.getD i dummyItem).success = false ∧
    ((runBatch images decode engine times totalTime).1.getD i dummyItem).error.isSome
      = true ∧
    ∀ decode2 engine2,
      (∀ j, j ≠ i → decode2 j = decode j) →
      (∀ j, j ≠ i → engine2 j = engine j) →
      ∀ j, j ≠ i →
        (runBatch images decode2 engine2 times totalTime).1.getD j dummyItem =
          (runBatch images decode engine times totalTime).1.getD j dummyItem := by
  obtain ⟨hsucc, herror⟩ :=
    processBatchItem_fail i (times i) (decode i) (engine i) hfail
  refine ⟨by simp [runBatch], ?_, ?_, ?_⟩
  · rw [runBatch_getD images decode engine times totalTime i hi]
    exact hsucc
  · rw [runBatch_getD images decode engine times totalTime i hi]
    exact herror
  · intro decode2 engine2 hdec2 heng2 j hj
    by_cases hjn : j < images.length
    · rw [runBatch_getD images decode2 engine2 times totalTime j hjn,
          runBatch_getD images decode engine times totalTime j hjn,
          hdec2 j hj, heng2 j hj]
    · have hlen2 : (runBatch images decode2 engine2 times totalTime).1.length ≤ j := by
        simpa [runBatch] using Nat.le_of_not_lt hjn
      have hlen1 : (runBatch images decode engine times totalTime).1.length ≤ j := by
        simpa [runBatch] using Nat.le_of_not_lt hjn
      rw [List.getD_eq_default _ _ hlen2, List.getD_eq_default _ _ hlen1]

/-- Concrete decode oracle: item 1 fails to decode, everything else decodes. -/
def witDecodeC (j : ℕ) : Except String Unit :=
  if j = 1 then Except.error "bad image" else Except.ok ()

/-- Concrete decode oracle: every item decodes. -/
def witDecodeOk (_ : ℕ) : Except String Unit := Except.ok ()

/-- Concrete batch engine: every item yields `sampleDet` for every option. -/
def witEngineC (_ : ℕ) : DetectorOptions → AttemptResult :=
  fun _ => Except.ok (some sampleDet)

/-- Concrete per-item elapsed times. -/
def witTimes (_ : ℕ) : ℕ := 1

theorem claim_C6_batch_failure_isolation_witness :
    (runBatch ["a", "b", "c"] witDecodeC witEngineC witTimes 3).1.length = 3 ∧
    ((runBatch ["a", "b", "c"] witDecodeC witEngineC witTimes 3).1.getD 1
        dummyItem).success = false ∧
    ((runBatch ["a", "b", "c"] witDecodeC witEngineC witTimes 3).1.getD 1
        dummyItem).error.isSome = true ∧
    (runBatch ["a", "b", "c"] witDecodeOk witEngineC witTimes 3).1.getD 0 dummyItem =
      (runBatch ["a", "b", "c"] witDecodeC witEngineC witTimes 3).1.getD 0 dummyItem := by
  have h := claim_C6_batch_failure_isolation ["a", "b", "c"] witDecodeC witEngineC
    witTimes 3 1 (by decide) (Or.inl ⟨"bad image", rfl⟩)
  refine ⟨h.1, h.2.1, h.2.2.1, ?_⟩
  exact h.2.2.2 witDecodeOk witEngineC
    (by intro j hj; simp [witDecodeOk, witDecodeC, hj])
    (fun j _ => rfl) 0 (by decide)

/-- The per-item loop body consults the engine only at the fixed batch
options. -/
theorem processBatchItem_options_only (i time : ℕ) (dec : Except String Unit)
    (eng eng2 : DetectorOptions → AttemptResult)
    (h : eng2 batchTinyOptions = eng batchTinyOptions) :
    processBatchItem i time dec eng2 = processBatchItem i time dec eng := by
  unfold processBatchItem
  rw [h]

/-- C10: the batch path uses exactly one fixed detector configuration (tiny
detector, input size 416, score threshold 0.3); an item with no valid
detection under that configuration is recorded as failed, and the batch
output is entirely insensitive to what the engine would return under any
other configuration — the fallback sequence is never consulted. -/
theorem claim_C10_batch_fixed_config (images : List String)
    (decode : ℕ → Except String Unit) (engine : ℕ → DetectorOptions → AttemptResult)
    (times : ℕ → ℕ) (totalTime : ℕ) (i : ℕ) (hi : i < images.length)
    (hnoface : jsValidE (engine i batchTinyOptions) = false) :
    batchTinyOptions = DetectorOptions.tiny 416 (3/10) ∧
    ((runBatch images decode engine times totalTime).1.getD i dummyItem).success
      = false ∧
    ∀ engine2 : ℕ → DetectorOptions → AttemptResult,
      (∀ j, engine2 j batchTinyOptions = engine j batchTinyOptions) →
      runBatch images decode engine2 times totalTime =
        runBatch images decode engine times totalTime := by
  refine ⟨rfl, ?_, ?_⟩
  · rw [runBatch_getD images decode engine times totalTime i hi]
    have hfail : (∃ msg, decode i = Except.error msg) ∨
        (∃ msg, engine i batchTinyOptions = Except.error msg) ∨
        (∃ od, engine i batchTinyOptions = Except.ok od ∧ jsValidOpt od = false) := by
      cases h : engine i batchTinyOptions with
      | error msg => exact Or.inr (Or.inl ⟨msg, rfl⟩)
      | ok od =>
        refine Or.inr (Or.inr ⟨od, rfl, ?_⟩)
        rw [h] at hnoface
        simpa [jsValidE] using hnoface
    exact (processBatchItem_fail i (times i) (decode i) (engine i) hfail).1
  · intro engine2 h2
    have hres : (List.range images.length).map
        (fun j => processBatchItem j (times j) (decode j) (engine2 j)) =
        (List.range images.length).map
          (fun j => processBatchItem j (times j) (decode j) (engine j)) :=
      List.map_congr_left (fun j _ =>
        processBatchItem_options_only j (times j) (decode j) (engine j) (engine2 j) (h2 j))
    simp [runBatch, hres]

/-- Concrete batch engine: no detection under the tiny-416 options, a
detection under every other configuration (so a fallback, were it applied,
would succeed). -/
def witEngineD (_ : ℕ) (o : DetectorOptions) : AttemptResult :=
  if isTiny416 o then Except.ok none else Except.error "never consulted"

theorem claim_C10_batch_fixed_config_witness :
    batchTinyOptions = DetectorOptions.tiny 416 (3/10) ∧
    ((runBatch ["x"] witDecodeOk (fun _ => witEngineA) witTimes 2).1.getD 0
        dummyItem).success = false ∧
    runBatch ["x"] witDecodeOk witEngineD witTimes 2 =
      runBatch ["x"] witDecodeOk (fun _ => witEngineA) witTimes 2 := by
  have h := claim_C10_batch_fixed_config ["x"] witDecodeOk (fun _ => witEngineA)
    witTimes 2 0 (by decide) rfl
  exact ⟨h.1, h.2.1, h.2.2 witEngineD (fun j => rfl)⟩

/-- C1 counterexample: on the empty batch (ready server, `images = []`), the
summary has `total = successful = failed = 0` and the request does not fail,
but `averageTime` is `Math.round(0 / 0) = NaN` — not the value `0` the claim
asserts. -/
theorem claim_C1_counterexample :
    (batchExtract ⟨true, []⟩ (some []) (fun _ => Except.ok ())
        (fun _ _ => Except.ok none) (fun _ => 0) 0).response =
      BatchResponse.ok []
        { total := 0, successful := 0, failed := 0, totalTime := 0,
          averageTime := JSNum.nan } ∧
    JSNum.nan ≠ JSNum.val 0 := by
  constructor
  · rfl
  · intro hcon
    cases hcon

/-- C1 (amended): the empty batch yields `summary.total = 0`,
`successful = 0`, `failed = 0` in an HTTP-200 response without a
division-by-zero crash, but `averageTime` is not 0: it is `NaN` (when the
measured total time is 0) or `Infinity` (otherwise), which JSON serialises
as `null`. -/
theorem claim_C1_empty_batch (st : ServerState)
    (decode : ℕ → Except String Unit) (engine : ℕ → DetectorOptions → AttemptResult)
    (times : ℕ → ℕ) (totalTime : ℕ) (hready : st.modelsLoaded = true) :
    (batchExtract st (some []) decode engine times totalTime).response =
      BatchResponse.ok []
        { total := 0, successful := 0, failed := 0, totalTime := totalTime,
          averageTime := if totalTime = 0 then JSNum.nan else JSNum.inf } ∧
    batchStatus (batchExtract st (some []) decode engine times totalTime).response
      = 200 ∧
    (if totalTime = 0 then JSNum.nan else JSNum.inf) ≠ JSNum.val 0 := by
  have hmain : (batchExtract st (some []) decode engine times totalTime).response =
      BatchResponse.ok []
        { total := 0, successful := 0, failed := 0, totalTime := totalTime,
          averageTime := if totalTime = 0 then JSNum.nan else JSNum.inf } := by
    by_cases ht : totalTime = 0 <;>
      simp [batchExtract, hready, runBatch, jsDiv, jsRound, ht]
  refine ⟨hmain, by rw [hmain]; rfl, ?_⟩
  by_cases ht : totalTime = 0 <;> simp [ht]

theorem claim_C1_empty_batch_witness :
    (batchExtract ⟨true, []⟩ (some []) (fun _ => Except.ok ())
        (fun _ _ => Except.ok none) (fun _ => 0) 4).response =
      BatchResponse.ok []
        { total := 0, successful := 0, failed := 0, totalTime := 4,
          averageTime := JSNum.inf } ∧
    batchStatus
      (batchExtract ⟨true, []⟩ (some []) (fun _ => Except.ok ())
          (fun _ _ => Except.ok none) (fun _ => 0) 4).response = 200 := by
  have h := claim_C1_empty_batch ⟨true, []⟩ (fun _ => Except.ok ())
    (fun _ _ => Except.ok none) (fun _ => 0) 4 rfl
  exact ⟨by simpa using h.1, h.2.1⟩

/-- C8: when `modelsLoaded` is false, both endpoints answer HTTP 503 with the
loading-progress snapshot; the single handler attempts no decoding and no
strategy, and the batch handler processes no items. -/
theorem claim_C8_not_ready_503 (st : ServerState)
    (image : Option String) (decode : String → Bool)
    (engine : DetectorOptions → AttemptResult) (totalTime : ℕ)
    (images : Option (List String)) (decodeB : ℕ → Except String Unit)
    (engineB : ℕ → DetectorOptions → AttemptResult) (times : ℕ → ℕ) (totalTimeB : ℕ)
    (hnotready : st.modelsLoaded = false) :
    extractEmbedding st image decode engine totalTime =
      ⟨ExtractResponse.notReady "Models not loaded yet" st.loadingProgress, [], false⟩ ∧
    extractStatus (extractEmbedding st image decode engine totalTime).response = 503 ∧
    batchExtract st images decodeB engineB times totalTimeB =
      ⟨BatchResponse.notReady "Models not loaded yet" st.loadingProgress, 0⟩ ∧
    batchStatus (batchExtract st images decodeB engineB times totalTimeB).response
      = 503 := by
  have h1 : extractEmbedding st image decode engine totalTime =
      ⟨ExtractResponse.notReady "Models not loaded yet" st.loadingProgress, [], false⟩ := by
    simp [extractEmbedding, extractEmbeddingWith, hnotready]
  have h2 : batchExtract st images decodeB engineB times totalTimeB =
      ⟨BatchResponse.notReady "Models not loaded yet" st.loadingProgress, 0⟩ := by
    simp [batchExtract, hnotready]
  exact ⟨h1, by rw [h1]; rfl, h2, by rw [h2]; rfl⟩

theorem claim_C8_not_ready_503_witness :
    extractEmbedding ⟨false, [("TinyFaceDetector", "loaded")]⟩ (some "img")
        (fun _ => true) (fun _ => Except.ok none) 1 =
      ⟨ExtractResponse.notReady "Models not loaded yet" [("TinyFaceDetector", "loaded")],
        [], false⟩ ∧
    batchExtract ⟨false, [("TinyFaceDetector", "loaded")]⟩ (some ["a"])
        (fun _ => Except.ok ()) (fun _ _ => Except.ok none) (fun _ => 0) 1 =
      ⟨BatchResponse.notReady "Models not loaded yet" [("TinyFaceDetector", "loaded")],
        0⟩ := by
  have h := claim_C8_not_ready_503 ⟨false, [("TinyFaceDetector", "loaded")]⟩
    (some "img") (fun _ => true) (fun _ => Except.ok none) 1 (some ["a"])
    (fun _ => Except.ok ()) (fun _ _ => Except.ok none) (fun _ => 0) 1 rfl
  exact ⟨h.1, h.2.2.1⟩

/-- C9: in every successful detection result — the single-image response and
the batch item result — the reported confidence is
`detection.detection.score || 0.0`, i.e. the engine's score when supplied
(a supplied score of 0 falls through the `||` to the identical default 0.0)
and 0.0 when the engine omits the score field. -/
theorem claim_C9_confidence_default (strategies pre post : List DetectionStrategy)
    (s : DetectionStrategy) (hsplit : strategies = pre ++ s :: post)
    (st : ServerState) (image : Option String) (decode : String → Bool)
    (engine : DetectorOptions → AttemptResult) (totalTime : ℕ)
    (hready : st.modelsLoaded = true) (himg : jsFalsyStr image = false)
    (hdec : decode (image.getD "") = true)
    (hne : ∀ o d, engine o = Except.ok (some d) → d.descriptor ≠ some [])
    (hpre : ∀ p ∈ pre, specValid (engine p.options) = false)
    (hs : specValid (engine s.options) = true)
    (i time : ℕ) (engB : DetectorOptions → AttemptResult) (dB : FaceDetection)
    (descB : List ℚ) (hengB : engB batchTinyOptions = Except.ok (some dB))
    (hdescB : dB.descriptor = some descB) :
    (∃ d, engine s.options = Except.ok (some d) ∧
      extractConfidence
        (extractEmbeddingWith strategies st image decode engine totalTime).response =
        some (jsConfidence d.score)) ∧
    (processBatchItem i time (Except.ok ()) engB).confidence =
      some (jsConfidence dB.score) ∧
    (∀ q : ℚ, jsConfidence (some q) = q) ∧
    jsConfidence none = 0 := by
  subst hsplit
  obtain ⟨od, hod, hv, heq⟩ := detectWithFallback_first_spec engine pre post s hne hpre hs
  refine ⟨?_, ?_, ?_, rfl⟩
  · cases od with
    | none => simp [jsValidOpt] at hv
    | some d =>
      cases hd : d.descriptor with
      | none => simp [jsValidOpt, hd] at hv
      | some desc =>
        exact ⟨d, hod,
          by simp [extractEmbeddingWith, hready, himg, hdec, heq, hd, extractConfidence]⟩
  · simp [processBatchItem, hengB, hdescB]
  · intro q
    by_cases hq : q = 0 <;> simp [jsConfidence, hq]

/-- Concrete engine: a detection with `sampleDet` under every configuration. -/
def witEngineOk (_ : DetectorOptions) : AttemptResult :=
  Except.ok (some sampleDet)

theorem witEngineOk_ne : ∀ o d, witEngineOk o = Except.ok (some d) →
    d.descriptor ≠ some [] := by
  intro o d h
  have hd : sampleDet = d := by
    injection h with h1
    injection h1
  rw [← hd]
  decide

theorem claim_C9_confidence_default_witness :
    (processBatchItem 0 1 (Except.ok ()) (fun _ => Except.ok (some sampleDet))).confidence
      = some (jsConfidence sampleDet.score) ∧
    jsConfidence (some (9/10)) = 9/10 ∧
    jsConfidence none = 0 := by
  have h := claim_C9_confidence_default detectionStrategies []
    [{ name := "TinyFaceDetector_Medium", options := DetectorOptions.tiny 320 (4/10) },
     { name := "TinyFaceDetector_Low", options := DetectorOptions.tiny 224 (5/10) },
     { name := "SsdMobilenetv1", options := DetectorOptions.ssd (3/10) }]
    { name := "TinyFaceDetector_High", options := DetectorOptions.tiny 416 (3/10) }
    rfl ⟨true, []⟩ (some "img") (fun _ => true) witEngineOk 3 rfl (by decide) rfl
    witEngineOk_ne (by intro p hp; exact absurd hp (List.not_mem_nil p)) (by decide)
    0 1 (fun _ => Except.ok (some sampleDet)) sampleDet [1, 2, 3] rfl rfl
  exact ⟨h.2.1, h.2.2.1 (9/10), h.2.2.2⟩

end FaceAPI
